import Mathlib

/-!
Verification development for the session-tracking frontend core of the
SCOUT market-research application.  The definitions below are shallow
embeddings of the TypeScript source under `src/frontend/src` (and the
unnamed source parts): pure functions are translated directly, the
react-query cache and timer decisions are modelled as explicit state
and decision functions, and JavaScript-specific semantics (truthiness,
UTF-16 code units, object key ordering) are modelled explicitly where
the source relies on them.
-/

namespace Scout

/-! ## JavaScript semantics helpers -/

/-- Truthiness of an optional JS string value: `undefined`, `null` and the
empty string are falsy, every other string is truthy. -/
def jsTruthyStr : Option String → Bool
  | none => false
  | some s => !s.isEmpty

/-- UTF-16 code units contributed by one character, as seen by JS
`charCodeAt` after `split('')` (characters above the BMP split into their
two surrogate code units). -/
def jsCodeUnitSum (c : Char) : Nat :=
  if c.toNat < 65536 then c.toNat
  else (55296 + (c.toNat - 65536) / 1024) + (56320 + (c.toNat - 65536) % 1024)

/-- Model of the JS expression
`name.split('').reduce((sum, char) => sum + char.charCodeAt(0), 0)`:
the sum of all UTF-16 code units of the string. -/
def jsCharCodeSum (s : String) : Nat :=
  s.data.foldl (fun sum c => sum + jsCodeUnitSum c) 0

/-! ## Derived per-company scores

`computeScore` is the fallback score of `src/frontend/src/pages/Investigation.tsx`
(lines 32-35); `wikiComputeScore` is the variant defined next to the
Settings page source (`CompetitorWiki`, lines 102-105 of that file). -/

/-- Embedding of `computeScore(name, idx)` from Investigation.tsx:
`base = sum of char codes + idx * 31; return 60 + (base % 40)`. -/
def computeScore (name : String) (idx : Nat) : Nat :=
  60 + (jsCharCodeSum name + idx * 31) % 40

/-- Embedding of `computeScore(name)` from CompetitorWiki:
`60 + (sum of char codes % 35)`. -/
def wikiComputeScore (name : String) : Nat :=
  60 + jsCharCodeSum name % 35

/-! ## Session snapshot data model (types/api.ts) -/

/-- One segmentation entry of a backend-supplied charts payload. -/
structure SegPoint where
  label : String
  value : Int
  deriving DecidableEq

/-- One company-scale entry of a backend-supplied charts payload. -/
structure ScalePoint where
  name : String
  employees : Int
  deriving DecidableEq

/-- One performance-matrix entry of a backend-supplied charts payload. -/
structure PerfPoint where
  x : Int
  score : Int
  deriving DecidableEq

/-- One market-evolution entry of a backend-supplied charts payload. -/
structure EvoPoint where
  name : String
  year : Int
  score : Int
  size : Int
  deriving DecidableEq

/-- The optional `charts` payload of a session snapshot (`ChartsPayload`
in types/api.ts); each of the four collections may be absent. -/
structure ChartsPayload where
  segmentation : Option (List SegPoint)
  company_scale : Option (List ScalePoint)
  performance_matrix : Option (List PerfPoint)
  market_evolution : Option (List EvoPoint)
  deriving DecidableEq

/-- A company card held by a session snapshot (`SessionCompanyCard` in
types/api.ts).  The optional `meta`-like structured fields that the core
never reads are kept as optional strings. -/
structure SessionCompanyCard where
  id : String
  name : String
  domain : Option String
  score : Option Int
  status : String
  data_reliability : Option String
  last_verified_at : Option String
  founded_year : Option Int
  employees : Option Int
  hq_city : Option String
  hq_country : Option String
  primary_tags : Option (List String)
  summary : Option String
  deriving DecidableEq

/-- A full session snapshot (`SessionResponse` in types/api.ts). -/
structure SessionResponse where
  id : String
  label : String
  segment : Option String
  status : String
  max_companies : Option Int
  companies_found : Int
  charts : Option ChartsPayload
  created_at : String
  updated_at : String
  companies : List SessionCompanyCard
  deriving DecidableEq

/-- A convenience snapshot with the given status and no charts or
companies, used to evaluate the polling decisions at concrete inputs. -/
def mkSnap (st : String) : SessionResponse :=
  ⟨"s1", "lms", none, st, none, 0, none, "2024-01-01T00:00:00", "2024-01-01T00:00:00", []⟩

/-! ## Adaptive poller decisions

`useSession` (unnamed part 009, lines 190-195) passes react-query the
option `refetchInterval: (data) => (data?.status === 'RUNNING' ? 4000 : false)`.
React-query evaluates this function on the freshly returned query data
after every fetch; `false` (here `none`) means no further fetch is
scheduled. -/

/-- The re-fetch decision of `useSession`, evaluated on the latest query
data: 4000 ms when the fresh status is the string RUNNING, otherwise no
further fetch (including when no data has arrived yet). -/
def sessionRefetchInterval (data : Option SessionResponse) : Option Nat :=
  match data with
  | some d => if d.status = "RUNNING" then some 4000 else none
  | none => none

/-- The sequence of snapshots actually fetched, given the snapshots the
backend would return to each successive fetch: the first fetch always
happens on mount, and each later fetch happens exactly when
`sessionRefetchInterval` applied to the previous fresh snapshot schedules
one. -/
def pollTrace : List SessionResponse → List SessionResponse
  | [] => []
  | snap :: rest =>
      snap :: (match sessionRefetchInterval (some snap) with
               | some _ => pollTrace rest
               | none => [])

/-- The legacy job-polling effect of Investigation.tsx (lines 109-115):
`if (!jobId) return; setInterval(() => refetchJob(), 4000)`.  The decision
depends only on the job id (with JS falsiness: `null` and `0` disable
polling); the job status is not consulted, so polling never stops while a
truthy job id is set. -/
def jobPollInterval (jobId : Option Int) : Option Nat :=
  match jobId with
  | none => none
  | some n => if n = 0 then none else some 4000

/-- Terminal statuses as named by the specification: COMPLETED or FAILED
for sessions, done or failed for the legacy job variant. -/
def specTerminalStatus (s : String) : Bool :=
  (s == "COMPLETED") || (s == "FAILED") || (s == "done") || (s == "failed")

/-! ## Session page refresh (Session.tsx, useRefreshSession)

`useRefreshSession` (unnamed part 009, lines 211-213) is a plain
react-query mutation around the refresh endpoint; Session.tsx (line 76)
invokes it as `() => refresh.mutateAsync({ sessionId })` and discards the
response.  A successful mutation stores its response in the mutation's
own data cell; nothing writes the `['session', id]` query cache that
`sessionRefetchInterval` is evaluated on. -/

/-- The client-side state relevant to the refresh flow: the data held by
the session query cache and the data held by the refresh mutation. -/
structure SessionPageState where
  sessionQueryData : Option SessionResponse
  refreshMutationData : Option SessionResponse
  deriving DecidableEq

/-- Effect of the refresh mutation succeeding with response `resp`:
the mutation data cell is set, and the session query cache is left
untouched (no `onSuccess`, `setQueryData` or invalidation exists in the
source). -/
def refreshMutationSuccess (st : SessionPageState) (resp : SessionResponse) : SessionPageState :=
  ⟨st.sessionQueryData, some resp⟩

/-! ## Log stream handling (useSessionLogs)

`useSessionLogs` (unnamed part 009, lines 197-203) is a plain
react-query query around `fetchSessionLogs(sessionId)`; no `since`
cursor is passed and no merge callback exists, so a successful fetch
stores the fetcher result as the new query data wholesale. -/

/-- A log entry (`SessionLog` in types/api.ts).  The optional structured
`meta` record, which no core logic reads, is omitted. -/
structure SessionLog where
  id : Int
  ts : String
  level : String
  message : String
  deriving DecidableEq

/-- Effect of a successful logs fetch on the held query data: react-query
replaces the previous data with the freshly fetched batch. -/
def applyLogsFetchSuccess (_held : Option (List SessionLog))
    (incoming : List SessionLog) : Option (List SessionLog) :=
  some incoming

/-- Modelled from the spec: the merge operation the claim describes
(union of the existing and incoming ids sorted ascending, an id present
in both keeping the existing entry).  No such operation exists in the
source; this definition is used only to compare the code against the
claimed behaviour. -/
def specMergeLogs (existing incoming : List SessionLog) : List SessionLog :=
  List.insertionSort (fun a b => a.id ≤ b.id)
    (existing ++ incoming.filter (fun e => !(existing.any (fun e2 => e2.id == e.id))))

/-- Concrete log entries used to evaluate the log claims. -/
def logA : SessionLog := ⟨1, "t1", "info", "boot"⟩

/-- Second concrete log entry. -/
def logB : SessionLog := ⟨2, "t2", "info", "crawl"⟩

/-- A variant of `logB` with the same id but different payload, as an
overlapping batch would resend it. -/
def logB2 : SessionLog := ⟨2, "t2", "warning", "crawl retry"⟩

/-- Third concrete log entry. -/
def logC : SessionLog := ⟨3, "t3", "success", "finished"⟩

/-! ## Recent-sessions cache consumers (Dashboard and Landing)

The `['sessions', limit]` query cache holds the fetched session list.
Dashboard (unnamed part 008, line 12) renders
`(sessions || []).sort(cmp)`; `Array.prototype.sort` sorts the cached
array in place.  Landing (unnamed part 009, lines 35-38) renders
`[...sessions].sort(cmp).slice(0, 6)`, copying before sorting. -/

/-- A session list entry (`SessionListItem` in types/api.ts). -/
structure SessionListItem where
  id : String
  label : String
  status : String
  updated_at : String
  deriving DecidableEq

/-- Ordering key modelling `new Date(s).getTime()` for timestamps that
share one fixed ISO layout: the concatenated digits of the string, which
is strictly monotone in the encoded instant for same-format strings. -/
def isoTimeKey (s : String) : Nat :=
  s.data.foldl (fun n c => if c.isDigit then n * 10 + (c.toNat - 48) else n) 0

/-- Stable insertion step of the ES2019 stable sort under the comparator
`(a, b) => new Date(b.updated_at).getTime() - new Date(a.updated_at).getTime()`
(descending by time; ties keep the original order). -/
def insertByUpdatedDesc (x : SessionListItem) :
    List SessionListItem → List SessionListItem
  | [] => [x]
  | y :: ys =>
      if isoTimeKey y.updated_at ≤ isoTimeKey x.updated_at then x :: y :: ys
      else y :: insertByUpdatedDesc x ys

/-- The list produced by `sort` under the descending-by-update comparator. -/
def sortByUpdatedDesc : List SessionListItem → List SessionListItem
  | [] => []
  | x :: xs => insertByUpdatedDesc x (sortByUpdatedDesc xs)

/-- Dashboard render step: returns the rendered list and the cache
content afterwards.  `(sessions || []).sort(cmp)` sorts the cached array
in place, so the cache afterwards holds the sorted array. -/
def dashboardRender (cache : Option (List SessionListItem)) :
    List SessionListItem × Option (List SessionListItem) :=
  match cache with
  | none => ([], none)
  | some l => (sortByUpdatedDesc l, some (sortByUpdatedDesc l))

/-- Landing render step: `[...sessions].sort(cmp).slice(0, 6)` copies the
cached array before sorting, so the cache afterwards is unchanged. -/
def landingRender (cache : Option (List SessionListItem)) :
    List SessionListItem × Option (List SessionListItem) :=
  match cache with
  | none => ([], none)
  | some l => ((sortByUpdatedDesc l).take 6, some l)

/-- Session list entry with the older update timestamp. -/
def itemOlder : SessionListItem := ⟨"a", "ev batteries", "COMPLETED", "2024-01-01T00:00:00"⟩

/-- Session list entry with the newer update timestamp. -/
def itemNewer : SessionListItem := ⟨"b", "lms vendors", "RUNNING", "2024-02-01T00:00:00"⟩

/-! ## Error message extraction (api/client.ts) -/

/-- The fields reachable through `error.response?.data` as the handler
reads them.  A missing `response` and a missing `data` both collapse to
`none` one level up, since only `data` is ever dereferenced. -/
structure AxiosErrorData where
  detail : Option String
  message : Option String
  deriving DecidableEq

/-- An axios error as the handler sees it: the optional response data and
the error's own message string. -/
structure AxiosErrorModel where
  responseData : Option AxiosErrorData
  message : String
  deriving DecidableEq

/-- A primitive JS value reaching the non-axios branch. -/
inductive JSValue where
  | jstring (s : String)
  | jnumber (n : Int)
  | jbool (b : Bool)
  | jnull
  | jundefined
  deriving DecidableEq

/-- Result of the JS conversion `String(value)` on a primitive value. -/
def jsToString : JSValue → String
  | .jstring s => s
  | .jnumber n => toString n
  | .jbool true => "true"
  | .jbool false => "false"
  | .jnull => "null"
  | .jundefined => "undefined"

/-- Input universe of the handler: an axios error or any other value. -/
inductive ErrorInput where
  | axios (e : AxiosErrorModel)
  | other (v : JSValue)
  deriving DecidableEq

/-- Embedding of `extractErrorMessage` (api/client.ts lines 47-58).  The
two data-field checks are JS truthiness tests on the optionally chained
values, so an absent field and an empty string are both skipped. -/
def extractErrorMessage : ErrorInput → String
  | .axios e =>
      if jsTruthyStr (e.responseData.bind (fun d => d.detail)) then
        (e.responseData.bind (fun d => d.detail)).getD ""
      else if jsTruthyStr (e.responseData.bind (fun d => d.message)) then
        (e.responseData.bind (fun d => d.message)).getD ""
      else e.message
  | .other v => jsToString v

/-- Axios error whose response carries a present but empty detail field. -/
def errEmptyDetail : AxiosErrorModel := ⟨some ⟨some "", some "boom"⟩, "wrapped"⟩

/-! ## Company records consumed by the Investigation page

`CompanySummary` from types/api.ts, extended with the
`first_discovered` field that Investigation.tsx reads on these records
(absent values are `none`, matching the undefined JS access). -/

/-- A company record as the Investigation page consumes it. -/
structure CompanySummary where
  id : Int
  name : String
  category : Option String
  region : Option String
  segment : Option String
  size_bucket : Option String
  description : Option String
  last_updated : Option String
  has_ai_features : Option Bool
  first_discovered : Option String
  deriving DecidableEq

/-- A company with the given name and category and every other field
absent, for evaluating the analytics at concrete inputs. -/
def mkCompany (name : String) (category : Option String) : CompanySummary :=
  ⟨0, name, category, none, none, none, none, none, none, none⟩

/-! ## JS object model for the bucketing records

Both grouping computations of Investigation.tsx build a
`Record<string, number>` with `map[key] = (map[key] || 0) + 1` and then
read it back with `Object.entries`.  A JS object keeps string keys in
insertion order except that keys that are canonical array indices
(canonical decimal numerals below 2^32 - 1) are listed first, in
ascending numeric order.  The record is modelled as an insertion-ordered
association list and `Object.entries` applies the key ordering. -/

/-- One step of `map[key] = (map[key] || 0) + 1`: increment the entry in
place, or append a new key at the end. -/
def bumpKey : List (String × Nat) → String → List (String × Nat)
  | [], k => [(k, 1)]
  | p :: rest, k => if p.1 = k then (p.1, p.2 + 1) :: rest else p :: bumpKey rest k

/-- The keys of the modelled record, in insertion order. -/
def recordKeys (m : List (String × Nat)) : List String := m.map Prod.fst

/-- Value lookup in the modelled record. -/
def lookupVal : List (String × Nat) → String → Option Nat
  | [], _ => none
  | p :: rest, k => if p.1 = k then some p.2 else lookupVal rest k

/-- First-occurrence deduplication: the order in which distinct values
first appear in the list. -/
def dedupFO : List String → List String
  | [] => []
  | x :: xs => x :: (dedupFO xs).filter (fun y => y != x)

/-- Canonical decimal numerals: nonempty, digits only, and no leading
zero except for the single digit 0 itself. -/
def isCanonicalNum (s : String) : Bool :=
  match s.data with
  | [] => false
  | [c] => c.isDigit
  | c :: rest => c.isDigit && (c != '0') && rest.all Char.isDigit

/-- Numeric value of a digit string. -/
def digitsVal (s : String) : Nat :=
  s.data.foldl (fun n c => n * 10 + (c.toNat - 48)) 0

/-- Canonical array-index keys of ECMAScript: the canonical decimal
numeral of an integer below 2^32 - 1. -/
def isArrayIndexKey (s : String) : Bool :=
  isCanonicalNum s && decide (digitsVal s < 4294967295)

/-- Numeric value of an array-index key. -/
def numKeyVal (s : String) : Nat := digitsVal s

/-- Insertion step of the ascending numeric ordering of array-index keys. -/
def insertByNumKey (p : String × Nat) :
    List (String × Nat) → List (String × Nat)
  | [] => [p]
  | q :: qs =>
      if numKeyVal p.1 ≤ numKeyVal q.1 then p :: q :: qs
      else q :: insertByNumKey p qs

/-- Ascending numeric ordering of array-index keys. -/
def sortByNumKey : List (String × Nat) → List (String × Nat)
  | [] => []
  | p :: ps => insertByNumKey p (sortByNumKey ps)

/-- Model of `Object.entries` on the record: array-index keys first in
ascending numeric order, then the remaining keys in insertion order. -/
def jsObjectEntries (m : List (String × Nat)) : List (String × Nat) :=
  sortByNumKey (m.filter (fun p => isArrayIndexKey p.1)) ++
    m.filter (fun p => !(isArrayIndexKey p.1))

/-! ## The four locally computed views (Investigation.tsx lines 62-105) -/

/-- The bucket label of `c.category || 'Uncategorized'` (JS truthiness:
an absent or empty category falls into the default bucket). -/
def categoryLabel (c : CompanySummary) : String :=
  match c.category with
  | some s => if s.isEmpty then "Uncategorized" else s
  | none => "Uncategorized"

/-- The bucket label of `c.size_bucket || 'Unknown'`. -/
def sizeLabel (c : CompanySummary) : String :=
  match c.size_bucket with
  | some s => if s.isEmpty then "Unknown" else s
  | none => "Unknown"

/-- The nine segment colors assigned cyclically by position. -/
def SEGMENT_COLORS : List String :=
  ["#6C5DD3", "#F97316", "#10B981", "#3B82F6", "#F43F5E",
   "#F59E0B", "#14B8A6", "#6366F1", "#06B6D4"]

/-- The category-count record built by the `marketSegmentation` memo. -/
def segCountsRecord (cs : List CompanySummary) : List (String × Nat) :=
  cs.foldl (fun m c => bumpKey m (categoryLabel c)) []

/-- Embedding of the `marketSegmentation` memo (lines 64-71): entries of
the category-count record, each with its cyclic color. -/
def marketSegmentation (cs : List CompanySummary) : List (String × Nat × String) :=
  (jsObjectEntries (segCountsRecord cs)).enum.map
    (fun p => (p.2.1, p.2.2, SEGMENT_COLORS.getD (p.1 % SEGMENT_COLORS.length) ""))

/-- The size-bucket record built by the `sizeBuckets` memo. -/
def sizeCountsRecord (cs : List CompanySummary) : List (String × Nat) :=
  cs.foldl (fun m c => bumpKey m (sizeLabel c)) []

/-- Embedding of the `sizeBuckets` memo (lines 73-80). -/
def sizeBuckets (cs : List CompanySummary) : List (String × Nat) :=
  jsObjectEntries (sizeCountsRecord cs)

/-- Embedding of the `performanceSeries` memo (lines 82-87): one
(name, derived score) pair per company in order. -/
def performanceSeries (cs : List CompanySummary) : List (String × Nat) :=
  cs.enum.map (fun p => (p.2.name, computeScore p.2.name p.1))

/-- Model of `new Date(s).getFullYear()` restricted to ISO-format date
strings: the leading four digits give the year (the extended year 0000
yields 0); strings not led by four digits are treated as unparseable. -/
def parseIsoYear (s : String) : Option Nat :=
  match s.data with
  | a :: b :: c :: d :: _ =>
      if a.isDigit && b.isDigit && c.isDigit && d.isDigit then
        some ((((a.toNat - 48) * 10 + (b.toNat - 48)) * 10 +
          (c.toNat - 48)) * 10 + (d.toNat - 48))
      else none
  | _ => none

/-- The date string selected by
`const dateStr = c.first_discovered || c.last_updated` followed by the
`dateStr ? ... : null` truthiness test. -/
def resolvedDateStr (c : CompanySummary) : Option String :=
  if jsTruthyStr c.first_discovered then c.first_discovered
  else if jsTruthyStr c.last_updated then c.last_updated
  else none

/-- The resolved year of a company, as the `foundingTimeline` memo
computes it before its final truthiness test. -/
def fdYear (c : CompanySummary) : Option Nat :=
  (resolvedDateStr c).bind parseIsoYear

/-- A point of the market-evolution scatter view. -/
structure TimelinePoint where
  x : Nat
  y : Rat
  z : Nat
  name : String
  deriving DecidableEq

/-- Body of the `foundingTimeline` memo (lines 89-105): the forEach index
advances for every company, and a point is pushed only when the resolved
year is truthy (non-null and nonzero). -/
def foundingTimelineAux : Nat → List CompanySummary → List TimelinePoint
  | _, [] => []
  | idx, c :: cs =>
      match fdYear c with
      | some y =>
          if y ≠ 0 then
            ⟨y, (computeScore c.name idx : Rat) / 2, 60 + (idx * 20) % 120, c.name⟩ ::
              foundingTimelineAux (idx + 1) cs
          else foundingTimelineAux (idx + 1) cs
      | none => foundingTimelineAux (idx + 1) cs

/-- Embedding of the `foundingTimeline` memo. -/
def foundingTimeline (cs : List CompanySummary) : List TimelinePoint :=
  foundingTimelineAux 0 cs

/-- The four derived views of the Analytics Aggregation Engine, computed
from one ordered company list. -/
def allViews (cs : List CompanySummary) :
    List (String × Nat × String) × List (String × Nat) ×
      List (String × Nat) × List TimelinePoint :=
  (marketSegmentation cs, sizeBuckets cs, performanceSeries cs, foundingTimeline cs)

/-! ## Charts shown on the Session page (Session.tsx lines 42-45) -/

/-- The four chart collections a page renders. -/
structure ChartsViews where
  segmentation : List SegPoint
  company_scale : List ScalePoint
  performance_matrix : List PerfPoint
  market_evolution : List EvoPoint
  deriving DecidableEq

/-- Embedding of the chart selection of Session.tsx:
`session?.charts?.segmentation || []` and its three siblings.  A missing
charts payload or a missing collection falls back to the empty list; a
present collection (arrays are always truthy in JS) is used as-is. -/
def sessionChartsShown (s : SessionResponse) : ChartsViews :=
  ⟨(s.charts.bind (fun ch => ch.segmentation)).getD [],
   (s.charts.bind (fun ch => ch.company_scale)).getD [],
   (s.charts.bind (fun ch => ch.performance_matrix)).getD [],
   (s.charts.bind (fun ch => ch.market_evolution)).getD []⟩

/-- Modelled from the spec: the local segmentation of a session's
CompanyCards that the claim says is computed when the backend snapshot is
absent.  No such computation exists on the Session page; cards carry no
category field, so per the spec every card falls into the default
bucket.  Used only to compare the code against the claimed behaviour. -/
def specSegmentationOfCards (cards : List SessionCompanyCard) : List (String × Nat) :=
  cards.foldl (fun m _ => bumpKey m "Uncategorized") []

/-- A concrete company card. -/
def cardEx : SessionCompanyCard :=
  ⟨"c1", "Acme", none, none, "complete", none, none, none, none, none, none, none, none⟩

/-- A concrete backend charts payload with all four collections present. -/
def chartsEx : ChartsPayload :=
  ⟨some [⟨"K12", 2⟩], some [⟨"Acme", 50⟩], some [⟨0, 80⟩],
   some [⟨"Acme", 2001, 40, 60⟩]⟩

/-- A session whose snapshot carries the backend charts payload. -/
def sessWithCharts : SessionResponse :=
  ⟨"s2", "lms", none, "COMPLETED", none, 1, some chartsEx,
   "2024-01-01T00:00:00", "2024-01-01T00:00:00", [cardEx]⟩

/-- A session whose snapshot carries no charts payload but one company. -/
def sessNoCharts : SessionResponse :=
  ⟨"s3", "lms", none, "COMPLETED", none, 1, none,
   "2024-01-01T00:00:00", "2024-01-01T00:00:00", [cardEx]⟩

/-- A company whose first-discovered date parses to the extended year
0000. -/
def yearZeroCompany : CompanySummary :=
  ⟨7, "Atlantis", none, none, none, none, none, none, none, some "0000-06-15"⟩

/-- The concrete company list of the claimed example. -/
def exK12 : List CompanySummary :=
  [mkCompany "Alpha" (some "K12"), mkCompany "Beta" (some "K12"),
   mkCompany "Gamma" none]

/-- A company list with a numeric category label. -/
def exNumericCat : List CompanySummary :=
  [mkCompany "Alpha" (some "K12"), mkCompany "Beta" (some "7")]

/-! ## Theorems -/

/-! ## Claim C1 -/

/-- C1 (amended): the session poller schedules a re-fetch (after 4000 ms)
only when the freshly returned status is RUNNING; every terminal status
stops polling, but so does PENDING, and a trace therefore ends exactly at
the first non-RUNNING snapshot.  The legacy job effect polls every
4000 ms whenever a truthy job id is set, independently of the job status,
and so never stops on done or failed. -/
theorem sessionPoll_refetch_policy :
    (∀ snap : SessionResponse, specTerminalStatus snap.status = true →
        sessionRefetchInterval (some snap) = none) ∧
    (∀ snap : SessionResponse, snap.status ≠ "RUNNING" →
        ∀ rest, pollTrace (snap :: rest) = [snap]) ∧
    (∀ snap : SessionResponse, snap.status = "RUNNING" →
        ∀ rest, pollTrace (snap :: rest) = snap :: pollTrace rest) ∧
    (∀ jobId : Int, jobId ≠ 0 → jobPollInterval (some jobId) = some 4000) := by
  refine ⟨?_, ?_, ?_, ?_⟩
  · intro snap h
    by_cases hr : snap.status = "RUNNING"
    · rw [hr] at h
      exact absurd h (by decide)
    · simp [sessionRefetchInterval, hr]
  · intro snap h rest
    simp [pollTrace, sessionRefetchInterval, h]
  · intro snap h rest
    simp [pollTrace, sessionRefetchInterval, h]
  · intro j h
    simp [jobPollInterval, h]

/-- Witness for C1: a RUNNING snapshot re-arms the poller so the next
fetch happens, the COMPLETED snapshot returned by that fetch stops the
trace, and a set job id keeps the legacy effect polling. -/
theorem sessionPoll_refetch_policy_witness :
    sessionRefetchInterval (some (mkSnap "COMPLETED")) = none ∧
    pollTrace [mkSnap "RUNNING", mkSnap "COMPLETED"] = [mkSnap "RUNNING", mkSnap "COMPLETED"] ∧
    jobPollInterval (some 7) = some 4000 := by
  refine ⟨sessionPoll_refetch_policy.1 (mkSnap "COMPLETED") (by decide), ?_,
    sessionPoll_refetch_policy.2.2.2 7 (by decide)⟩
  have h3 := sessionPoll_refetch_policy.2.2.1 (mkSnap "RUNNING") (by decide) [mkSnap "COMPLETED"]
  have h2 := sessionPoll_refetch_policy.2.1 (mkSnap "COMPLETED") (by decide) ([] : List SessionResponse)
  rw [h3, h2]

/-- Counterexample to C1 as stated: PENDING is a non-terminal status, yet
the poller schedules no re-fetch for a fresh PENDING snapshot, so polling
stops rather than continuing at the fixed interval. -/
theorem sessionPoll_pending_not_refetched :
    specTerminalStatus "PENDING" = false ∧
    sessionRefetchInterval (some (mkSnap "PENDING")) = none := by
  exact ⟨by decide, by decide⟩

/-! ## Claim C2 -/

/-- C2 (code bug witness): the refresh mutation never writes the session
query cache, so for a session whose cached snapshot is COMPLETED, a
successful refresh whose response snapshot has status RUNNING leaves the
poller decision at `none` - polling does not resume, contradicting the
stated re-arming behaviour. -/
theorem refresh_does_not_rearm_poller :
    (∀ (st : SessionPageState) (resp : SessionResponse),
        (refreshMutationSuccess st resp).sessionQueryData = st.sessionQueryData) ∧
    sessionRefetchInterval
        ((refreshMutationSuccess ⟨some (mkSnap "COMPLETED"), none⟩
            (mkSnap "RUNNING")).sessionQueryData) = none ∧
    (mkSnap "RUNNING").status = "RUNNING" := by
  exact ⟨fun st resp => rfl, by decide, rfl⟩

/-! ## Claim C3 -/

/-- C3 (amended): applying an incoming batch replaces the held log
sequence wholesale with the incoming batch.  When the backend resends
the full history (the held sequence is a prefix of the incoming batch,
ids strictly increasing across the whole batch) this coincides with the
claimed keep-existing union merge; in general a held entry whose id is
absent from the incoming batch is dropped rather than kept. -/
theorem logs_fetch_wholesale_replacement :
    (∀ (held : Option (List SessionLog)) (incoming : List SessionLog),
        applyLogsFetchSuccess held incoming = some incoming) ∧
    (∀ existing rest : List SessionLog,
        List.Pairwise (fun a b => a.id < b.id) (existing ++ rest) →
        applyLogsFetchSuccess (some existing) (existing ++ rest) =
          some (specMergeLogs existing (existing ++ rest))) := by
  constructor
  · intro held incoming
    rfl
  · intro existing rest h
    have hcross : ∀ a ∈ existing, ∀ b ∈ rest, a.id < b.id :=
      (List.pairwise_append.mp h).2.2
    have hfilter :
        (existing ++ rest).filter
            (fun e => !(existing.any (fun e2 => e2.id == e.id))) = rest := by
      rw [List.filter_append]
      have h1 : existing.filter
          (fun e => !(existing.any (fun e2 => e2.id == e.id))) = [] := by
        rw [List.filter_eq_nil_iff]
        intro e he
        have hany : existing.any (fun e2 => e2.id == e.id) = true :=
          List.any_eq_true.mpr ⟨e, he, by simp⟩
        simp [hany]
      have h2 : rest.filter
          (fun e => !(existing.any (fun e2 => e2.id == e.id))) = rest := by
        rw [List.filter_eq_self]
        intro e he
        simp only [Bool.not_eq_true', List.any_eq_false]
        intro e2 he2
        have := hcross e2 he2 e he
        simp only [beq_iff_eq]
        omega
      rw [h1, h2, List.nil_append]
    have hsorted : List.Sorted (fun a b : SessionLog => a.id ≤ b.id) (existing ++ rest) :=
      h.imp (fun hab => le_of_lt hab)
    simp only [specMergeLogs, hfilter, applyLogsFetchSuccess]
    rw [hsorted.insertionSort_eq]

/-- Witness for C3: an append-only full-history batch, where wholesale
replacement and the claimed merge agree. -/
theorem logs_fetch_wholesale_replacement_witness :
    applyLogsFetchSuccess (some [logA]) ([logA] ++ [logB]) =
      some (specMergeLogs [logA] ([logA] ++ [logB])) :=
  logs_fetch_wholesale_replacement.2 [logA] [logB] (by decide)

/-- Counterexample to C3 as stated: for an incoming batch that overlaps
but does not contain id 1, the held sequence becomes the incoming batch
itself, while the claimed union merge would keep the existing entries
for ids 1 and 2. -/
theorem logs_merge_claim_counterexample :
    applyLogsFetchSuccess (some [logA, logB]) [logB2, logC] = some [logB2, logC] ∧
    specMergeLogs [logA, logB] [logB2, logC] = [logA, logB, logC] ∧
    [logB2, logC] ≠ [logA, logB, logC] := by
  exact ⟨rfl, by decide, by decide⟩

/-! ## Claim C9 -/

/-- C9 (code bug witness): rendering Dashboard over the cached list
[older, newer] leaves the cache reordered to [newer, older] - a consumer
mutation of the cached value - whereas the Landing consumer leaves the
same cache unchanged because it copies before sorting. -/
theorem dashboard_sort_mutates_cache :
    (dashboardRender (some [itemOlder, itemNewer])).2 = some [itemNewer, itemOlder] ∧
    some [itemNewer, itemOlder] ≠ some [itemOlder, itemNewer] ∧
    (landingRender (some [itemOlder, itemNewer])).2 = some [itemOlder, itemNewer] := by
  exact ⟨by decide, by decide, rfl⟩

/-! ## Claim C10 -/

/-- C10 (amended): for an axios error the handler returns
`response.data.detail` when present and non-empty, otherwise
`response.data.message` when present and non-empty, otherwise the
error's own message; for any non-axios value it returns `String(value)`.
The function is total, so it never throws. -/
theorem extractErrorMessage_truthy_cascade :
    (∀ (e : AxiosErrorModel) (d : AxiosErrorData) (s : String),
        e.responseData = some d → d.detail = some s → s ≠ "" →
        extractErrorMessage (.axios e) = s) ∧
    (∀ (e : AxiosErrorModel) (d : AxiosErrorData) (s : String),
        e.responseData = some d → (d.detail = none ∨ d.detail = some "") →
        d.message = some s → s ≠ "" →
        extractErrorMessage (.axios e) = s) ∧
    (∀ e : AxiosErrorModel, e.responseData = none →
        extractErrorMessage (.axios e) = e.message) ∧
    (∀ v : JSValue, extractErrorMessage (.other v) = jsToString v) := by
  refine ⟨?_, ?_, ?_, fun v => rfl⟩
  · intro e d s h1 h2 h3
    have hne : s.isEmpty = false := by
      cases hs : s.isEmpty
      · rfl
      · exact absurd ((String.isEmpty_iff s).mp hs) h3
    simp [extractErrorMessage, h1, h2, jsTruthyStr, hne]
  · intro e d s h1 h2 h3 h4
    have hne : s.isEmpty = false := by
      cases hs : s.isEmpty
      · rfl
      · exact absurd ((String.isEmpty_iff s).mp hs) h4
    have hemp : ("" : String).isEmpty = true := rfl
    rcases h2 with h2 | h2 <;>
      simp [extractErrorMessage, h1, h2, h3, jsTruthyStr, hne, hemp]
  · intro e h
    simp [extractErrorMessage, h, jsTruthyStr]

/-- Witness for C10: a response carrying a non-empty detail field is
returned directly. -/
theorem extractErrorMessage_truthy_cascade_witness :
    extractErrorMessage (.axios ⟨some ⟨some "bad request", some "other"⟩, "wrapped"⟩) =
      "bad request" :=
  extractErrorMessage_truthy_cascade.1
    ⟨some ⟨some "bad request", some "other"⟩, "wrapped"⟩
    ⟨some "bad request", some "other"⟩ "bad request" rfl rfl (by decide)

/-- Counterexample to C10 as stated: the detail field is present (the
empty string) yet the handler skips it and returns the message field
instead, because the check is JS truthiness rather than presence. -/
theorem extractErrorMessage_empty_detail_skipped :
    errEmptyDetail.responseData = some ⟨some "", some "boom"⟩ ∧
    extractErrorMessage (.axios errEmptyDetail) = "boom" ∧
    ("boom" : String) ≠ "" := by
  exact ⟨rfl, by decide, by decide⟩

/-! ## Claim C5 -/

/-- C5 (amended): the Session page shows the backend-supplied chart
collections as-is whenever they are present, shows empty views when the
charts payload is absent, and never computes views from the session's
CompanyCards - the shown charts do not depend on the company list at
all.  Local computation exists only on the legacy Investigation page,
which never consumes a backend snapshot, so no session ever mixes the
two sources. -/
theorem sessionCharts_backend_precedence :
    (∀ s1 s2 : SessionResponse, s1.charts = s2.charts →
        sessionChartsShown s1 = sessionChartsShown s2) ∧
    (∀ (s : SessionResponse) (ch : ChartsPayload) (l : List SegPoint),
        s.charts = some ch → ch.segmentation = some l →
        (sessionChartsShown s).segmentation = l) ∧
    (∀ (s : SessionResponse) (ch : ChartsPayload) (l : List ScalePoint),
        s.charts = some ch → ch.company_scale = some l →
        (sessionChartsShown s).company_scale = l) ∧
    (∀ (s : SessionResponse) (ch : ChartsPayload) (l : List PerfPoint),
        s.charts = some ch → ch.performance_matrix = some l →
        (sessionChartsShown s).performance_matrix = l) ∧
    (∀ (s : SessionResponse) (ch : ChartsPayload) (l : List EvoPoint),
        s.charts = some ch → ch.market_evolution = some l →
        (sessionChartsShown s).market_evolution = l) ∧
    (∀ s : SessionResponse, s.charts = none →
        sessionChartsShown s = ⟨[], [], [], []⟩) := by
  refine ⟨?_, ?_, ?_, ?_, ?_, ?_⟩
  · intro s1 s2 h
    simp [sessionChartsShown, h]
  · intro s ch l h1 h2
    simp [sessionChartsShown, h1, h2]
  · intro s ch l h1 h2
    simp [sessionChartsShown, h1, h2]
  · intro s ch l h1 h2
    simp [sessionChartsShown, h1, h2]
  · intro s ch l h1 h2
    simp [sessionChartsShown, h1, h2]
  · intro s h
    simp [sessionChartsShown, h]

/-- Witness for C5: the session carrying a backend payload shows its
segmentation as-is, the session without one shows empty views, and the
shown charts of two sessions with the same charts payload but different
company lists coincide. -/
theorem sessionCharts_backend_precedence_witness :
    (sessionChartsShown sessWithCharts).segmentation = [⟨"K12", 2⟩] ∧
    sessionChartsShown sessNoCharts = ⟨[], [], [], []⟩ ∧
    sessionChartsShown sessNoCharts =
      sessionChartsShown ⟨"s3", "lms", none, "COMPLETED", none, 0, none,
        "2024-01-01T00:00:00", "2024-01-01T00:00:00", []⟩ := by
  refine ⟨sessionCharts_backend_precedence.2.1 sessWithCharts chartsEx _ rfl rfl,
    sessionCharts_backend_precedence.2.2.2.2.2 sessNoCharts rfl,
    sessionCharts_backend_precedence.1 _ _ rfl⟩

/-- Counterexample to C5 as stated: for a session with companies but no
backend charts payload the page shows empty views, not the locally
computed segmentation of its CompanyCards demanded by the claim. -/
theorem sessionCharts_absent_shows_empty_not_local :
    sessNoCharts.charts = none ∧
    (sessionChartsShown sessNoCharts).segmentation = [] ∧
    specSegmentationOfCards sessNoCharts.companies = [("Uncategorized", 1)] ∧
    ([("Uncategorized", 1)] : List (String × Nat)) ≠ [] := by
  exact ⟨rfl, rfl, by decide, by decide⟩

/-! ## Claim C6 -/

/-- C6 (amended): the fallback score of the Investigation page is a
deterministic function of the company's name and its position in the
rendered list - not of the name alone - and always lies in the range
[60, 100) (in fact in [60, 100) with maximum 99); the per-company wiki
variant depends on the name alone and lies in [60, 95). -/
theorem computeScore_range :
    ∀ (name : String) (idx : Nat),
      (60 ≤ computeScore name idx ∧ computeScore name idx ≤ 99) ∧
      (60 ≤ wikiComputeScore name ∧ wikiComputeScore name ≤ 94) := by
  intro name idx
  have h1 : (jsCharCodeSum name + idx * 31) % 40 < 40 :=
    Nat.mod_lt _ (by norm_num)
  have h2 : jsCharCodeSum name % 35 < 35 :=
    Nat.mod_lt _ (by norm_num)
  unfold computeScore wikiComputeScore
  omega

/-- Counterexample to C6 as stated: the same company name scores
differently at different list positions, so the fallback score is not a
function of the company's identity alone. -/
theorem computeScore_depends_on_position :
    computeScore "A" 0 = 85 ∧ computeScore "A" 1 = 76 ∧
    computeScore "A" 0 ≠ computeScore "A" 1 := by
  exact ⟨by decide, by decide, by decide⟩

/-! ## Claim C7 -/

/-- C7 (amended): the market-evolution view contains exactly one point
for each company whose resolved year (preferring a truthy
first-discovered date, else a truthy last-updated date) is nonzero, in
input order; a company with no resolvable year is dropped, and so is a
company whose year resolves to 0, because the final check is JS
truthiness on the year. -/
theorem foundingTimeline_nonzero_years :
    ∀ cs : List CompanySummary,
      (foundingTimeline cs).map (fun p => p.name) =
        (cs.filter (fun c => (fdYear c).getD 0 != 0)).map (fun c => c.name) := by
  suffices h : ∀ (cs : List CompanySummary) (idx : Nat),
      (foundingTimelineAux idx cs).map (fun p => p.name) =
        (cs.filter (fun c => (fdYear c).getD 0 != 0)).map (fun c => c.name) by
    exact fun cs => h cs 0
  intro cs
  induction cs with
  | nil => intro idx; rfl
  | cons c cs ih =>
    intro idx
    cases hy : fdYear c with
    | none =>
        simp only [foundingTimelineAux, hy, List.filter_cons, Option.getD_none]
        norm_num
        exact ih (idx + 1)
    | some y =>
        by_cases hz : y = 0
        · subst hz
          simp only [foundingTimelineAux, hy, List.filter_cons, Option.getD_some]
          norm_num
          exact ih (idx + 1)
        · simp only [foundingTimelineAux, hy, List.filter_cons, Option.getD_some,
            if_pos hz, bne_iff_ne, ne_eq, hz, not_false_eq_true, if_true, List.map_cons]
          rw [ih (idx + 1)]

/-- Counterexample to C7 as stated: the year of this company is
resolvable (it resolves to 0), yet the view contains no point for it. -/
theorem foundingTimeline_drops_year_zero :
    fdYear yearZeroCompany = some 0 ∧
    foundingTimeline [yearZeroCompany] = [] := by
  exact ⟨by decide, by decide⟩

/-! ## Claim C8 -/

/-- C8: the Analytics Aggregation Engine is a deterministic pure function
of the ordered company list: evaluating the four derived views over
equal ordered inputs yields identical outputs; the embedding carries no
hidden state, matching the source, which reads only ordered arrays and
insertion-ordered records. -/
theorem analytics_deterministic :
    ∀ cs1 cs2 : List CompanySummary, cs1 = cs2 → allViews cs1 = allViews cs2 := by
  intro cs1 cs2 h
  rw [h]

/-- Witness for C8: two evaluations on the same concrete list coincide. -/
theorem analytics_deterministic_witness :
    allViews [mkCompany "Acme" (some "K12")] =
      allViews [mkCompany "Acme" (some "K12")] :=
  analytics_deterministic _ _ rfl

/-! ## Properties of the JS record model -/

/-- Bumping a key makes its stored count one larger than before. -/
lemma bumpKey_lookup_self (m : List (String × Nat)) (k : String) :
    lookupVal (bumpKey m k) k = some ((lookupVal m k).getD 0 + 1) := by
  induction m with
  | nil => simp [bumpKey, lookupVal]
  | cons p rest ih =>
      by_cases h : p.1 = k
      · simp [bumpKey, lookupVal, h]
      · simp [bumpKey, lookupVal, h, ih]

/-- Bumping a key leaves every other key's count unchanged. -/
lemma bumpKey_lookup_ne (m : List (String × Nat)) (k k2 : String) (h : k2 ≠ k) :
    lookupVal (bumpKey m k) k2 = lookupVal m k2 := by
  induction m with
  | nil => simp [bumpKey, lookupVal, Ne.symm h]
  | cons p rest ih =>
      by_cases hp : p.1 = k
      · have hkk : ¬(k = k2) := fun hh => h hh.symm
        simp [bumpKey, lookupVal, hp, hkk]
      · by_cases hq : p.1 = k2
        · simp [bumpKey, lookupVal, hp, hq, h]
        · simp [bumpKey, lookupVal, hp, hq, ih]

/-- Bumping a key keeps the key sequence, except that a fresh key is
appended at the end. -/
lemma bumpKey_keys (m : List (String × Nat)) (k : String) :
    recordKeys (bumpKey m k) =
      if k ∈ recordKeys m then recordKeys m else recordKeys m ++ [k] := by
  induction m with
  | nil => simp [bumpKey, recordKeys]
  | cons p rest ih =>
      by_cases h : p.1 = k
      · simp [bumpKey, recordKeys, h]
      · simp only [bumpKey, if_neg h, recordKeys, List.map_cons]
        rw [show List.map Prod.fst (bumpKey rest k) = recordKeys (bumpKey rest k) from rfl,
          ih]
        by_cases hm : k ∈ recordKeys rest
        · rw [if_pos hm, if_pos (by
            simp only [recordKeys] at hm
            exact List.mem_cons_of_mem _ hm)]
          rfl
        · rw [if_neg hm, if_neg (by
            simp only [recordKeys] at hm
            simp only [List.mem_cons, not_or]
            exact ⟨fun hh => h hh.symm, hm⟩)]
          rfl

/-- The count a key holds after folding a label list into the record. -/
lemma foldl_bumpKey_count (ls : List String) (k : String) :
    ∀ m : List (String × Nat),
      (lookupVal (List.foldl bumpKey m ls) k).getD 0 =
        (lookupVal m k).getD 0 + List.count k ls := by
  induction ls with
  | nil => intro m; simp
  | cons l ls ih =>
      intro m
      rw [List.foldl_cons, ih (bumpKey m l)]
      by_cases h : k = l
      · subst h
        rw [bumpKey_lookup_self]
        simp [List.count_cons]
        omega
      · rw [bumpKey_lookup_ne _ _ _ h]
        have hlk : (l == k) = false := by
          simp [Ne.symm h]
        simp [List.count_cons, hlk]

/-- Every value surviving first-occurrence deduplication occurs in the
original list. -/
lemma mem_dedupFO {ls : List String} {y : String} (h : y ∈ dedupFO ls) : y ∈ ls := by
  induction ls with
  | nil => simp [dedupFO] at h
  | cons x xs ih =>
      simp only [dedupFO, List.mem_cons] at h
      rcases h with h | h
      · exact h ▸ List.mem_cons_self x xs
      · exact List.mem_cons_of_mem _ (ih (List.mem_of_mem_filter h))

/-- First-occurrence deduplication commutes with filtering. -/
lemma dedupFO_filter_comm (q : String → Bool) (ls : List String) :
    dedupFO (ls.filter q) = (dedupFO ls).filter q := by
  induction ls with
  | nil => rfl
  | cons x xs ih =>
      cases hqx : q x with
      | true =>
          rw [List.filter_cons_of_pos hqx]
          simp only [dedupFO]
          rw [ih, List.filter_cons_of_pos hqx]
          congr 1
          rw [List.filter_filter, List.filter_filter]
          exact List.filter_congr (fun y _ => by rw [Bool.and_comm])
      | false =>
          rw [List.filter_cons_of_neg (by simp [hqx])]
          simp only [dedupFO]
          rw [List.filter_cons_of_neg (by simp [hqx]), ih, List.filter_filter]
          exact List.filter_congr (fun y _ => by
            by_cases hyx : y = x
            · subst hyx
              simp [hqx]
            · simp [hyx])

/-- Key sequence after folding a label list into the record: the old
keys, then the fresh labels in first-occurrence order. -/
lemma foldl_bumpKey_keys (ls : List String) :
    ∀ m : List (String × Nat),
      recordKeys (List.foldl bumpKey m ls) =
        recordKeys m ++
          dedupFO (ls.filter (fun y => decide (y ∉ recordKeys m))) := by
  induction ls with
  | nil => intro m; simp [dedupFO]
  | cons l ls ih =>
      intro m
      rw [List.foldl_cons, ih (bumpKey m l)]
      simp only [bumpKey_keys]
      by_cases hm : l ∈ recordKeys m
      · simp only [if_pos hm]
        congr 1
        rw [List.filter_cons]
        simp [hm]
      · simp only [if_neg hm]
        rw [List.filter_cons]
        have hl : decide (l ∉ recordKeys m) = true := by simp [hm]
        rw [hl]
        simp only [if_true]
        have hpred : ∀ y ∈ ls,
            (decide (y ∉ recordKeys m ++ [l])) =
              ((y != l) && decide (y ∉ recordKeys m)) := by
          intro y _
          by_cases h1 : y = l
          · subst h1
            simp [List.mem_append]
          · by_cases h2 : y ∈ recordKeys m <;> simp [List.mem_append, h1, h2]
        rw [List.filter_congr hpred, ← List.filter_filter, dedupFO_filter_comm]
        simp [dedupFO]

/-- Folding labels into a record with distinct keys keeps the keys
distinct. -/
lemma foldl_bumpKey_nodup (ls : List String) :
    ∀ m : List (String × Nat), (recordKeys m).Nodup →
      (recordKeys (List.foldl bumpKey m ls)).Nodup := by
  induction ls with
  | nil => intro m h; exact h
  | cons l ls ih =>
      intro m h
      rw [List.foldl_cons]
      apply ih
      rw [bumpKey_keys]
      by_cases hm : l ∈ recordKeys m
      · rw [if_pos hm]
        exact h
      · rw [if_neg hm]
        simp [List.nodup_append, h, hm]

/-- A record with distinct keys is determined by its key sequence and the
value each key looks up. -/
lemma recordKeys_reconstruct :
    ∀ m : List (String × Nat), (recordKeys m).Nodup →
      m = (recordKeys m).map (fun k => (k, (lookupVal m k).getD 0)) := by
  intro m
  induction m with
  | nil => intro h; rfl
  | cons p rest ih =>
      intro h
      simp only [recordKeys, List.map_cons] at h ⊢
      have h1 : p.1 ∉ List.map Prod.fst rest := (List.nodup_cons.mp h).1
      have h2 : (List.map Prod.fst rest).Nodup := (List.nodup_cons.mp h).2
      have hhead : lookupVal (p :: rest) p.1 = some p.2 := by simp [lookupVal]
      rw [hhead]
      have htail : (List.map Prod.fst rest).map
            (fun k => (k, (lookupVal (p :: rest) k).getD 0)) =
          (List.map Prod.fst rest).map
            (fun k => (k, (lookupVal rest k).getD 0)) :=
        List.map_congr_left (fun k hk => by
          have hne : p.1 ≠ k := fun hh => h1 (hh ▸ hk)
          simp [lookupVal, hne])
      rw [htail]
      have ih2 := ih h2
      simp only [recordKeys] at ih2
      rw [← ih2]
      rfl

/-! ## Claim C4 -/

/-- C4 (amended): the segmentation view groups companies by their
category (default bucket Uncategorized for an absent or empty category)
and counts companies per bucket; the buckets appear in first-occurrence
order provided no bucket label is a canonical array-index string - a
label that is a canonical decimal numeral below 2^32 - 1 is hoisted to
the front in ascending numeric order by the JS object key ordering.  The
example [K12, K12, null] yields [(K12, 2), (Uncategorized, 1)]. -/
theorem marketSegmentation_first_occurrence :
    ∀ cs : List CompanySummary,
      (∀ c ∈ cs, isArrayIndexKey (categoryLabel c) = false) →
      (marketSegmentation cs).map (fun e => (e.1, e.2.1)) =
        (dedupFO (cs.map categoryLabel)).map
          (fun k => (k, List.count k (cs.map categoryLabel))) := by
  intro cs hno
  have hfold : segCountsRecord cs = List.foldl bumpKey [] (cs.map categoryLabel) := by
    unfold segCountsRecord
    rw [List.foldl_map]
  have hkeys : recordKeys (segCountsRecord cs) = dedupFO (cs.map categoryLabel) := by
    rw [hfold, foldl_bumpKey_keys]
    simp [recordKeys]
  have hmem : ∀ pq ∈ segCountsRecord cs, isArrayIndexKey pq.1 = false := by
    intro pq hpq
    have h1 : pq.1 ∈ recordKeys (segCountsRecord cs) :=
      List.mem_map_of_mem Prod.fst hpq
    rw [hkeys] at h1
    rcases List.mem_map.mp (mem_dedupFO h1) with ⟨c, hc, hceq⟩
    exact hceq ▸ hno c hc
  have hent : jsObjectEntries (segCountsRecord cs) = segCountsRecord cs := by
    unfold jsObjectEntries
    have hA : (segCountsRecord cs).filter (fun p => isArrayIndexKey p.1) = [] :=
      List.filter_eq_nil_iff.mpr (fun p hp => by simp [hmem p hp])
    have hB : (segCountsRecord cs).filter (fun p => !(isArrayIndexKey p.1)) =
        segCountsRecord cs :=
      List.filter_eq_self.mpr (fun p hp => by simp [hmem p hp])
    rw [hA, hB]
    rfl
  have hmap : (marketSegmentation cs).map (fun e => (e.1, e.2.1)) =
      segCountsRecord cs := by
    unfold marketSegmentation
    rw [hent, List.map_map]
    have hcomp : ((fun e : String × Nat × String => (e.1, e.2.1)) ∘
        (fun p : Nat × (String × Nat) =>
          (p.2.1, p.2.2, SEGMENT_COLORS.getD (p.1 % SEGMENT_COLORS.length) ""))) =
        (fun q : String × Nat => (q.1, q.2)) ∘ Prod.snd := rfl
    rw [hcomp, ← List.map_map, List.enum_map_snd]
    simp
  rw [hmap]
  have hnodup : (recordKeys (segCountsRecord cs)).Nodup := by
    rw [hfold]
    exact foldl_bumpKey_nodup _ [] (by simp [recordKeys])
  have hrec := recordKeys_reconstruct (segCountsRecord cs) hnodup
  rw [hrec, hkeys]
  exact List.map_congr_left (fun k hk => by
    have hv : (lookupVal (segCountsRecord cs) k).getD 0 =
        List.count k (cs.map categoryLabel) := by
      rw [hfold, foldl_bumpKey_count]
      simp [lookupVal]
    rw [hv])

/-- Witness for C4: the example list has no array-index labels and
yields the two claimed buckets in first-occurrence order. -/
theorem marketSegmentation_first_occurrence_witness :
    (∀ c ∈ exK12, isArrayIndexKey (categoryLabel c) = false) ∧
    (marketSegmentation exK12).map (fun e => (e.1, e.2.1)) =
      [("K12", 2), ("Uncategorized", 1)] := by
  refine ⟨by decide, ?_⟩
  rw [marketSegmentation_first_occurrence exK12 (by decide)]
  decide

/-- Counterexample to C4 as stated: with a numeric category label the
bucket order is not first-occurrence order - Object.entries hoists the
array-index key 7 to the front. -/
theorem marketSegmentation_numeric_label_reordered :
    exNumericCat.map categoryLabel = ["K12", "7"] ∧
    (marketSegmentation exNumericCat).map (fun e => e.1) = ["7", "K12"] ∧
    (["7", "K12"] : List String) ≠ ["K12", "7"] := by
  exact ⟨by decide, by decide, by decide⟩

end Scout
